import Mathlib

/-!
Verification of the power sequencer firmware: a shallow embedding of
`src/millis.rs` (monotonic millisecond clock and deadlines),
`src/debounce.rs` (digital-signal debounce filter) and `src/main.rs`
(the power-sequencing state machine), with theorems settling the
specification's claims about them.

Machine integers are modelled as `Nat` with explicit reduction modulo
`2 ^ 64` (for `u64`) or `2 ^ 32` (for `u32`) wherever the source's
arithmetic can wrap.
-/

/-- `embedded_hal::digital::PinState`: a binary digital level. -/
inductive PinState where
  | low
  | high
deriving DecidableEq, Repr

/-- `toggle()` on an output pin flips its driven level. -/
def PinState.toggle : PinState → PinState
  | .low => .high
  | .high => .low

/-- Wrapping subtraction on `u64` values (`a - b` in release-mode Rust),
with both operands and the result reduced modulo `2 ^ 64`. -/
def wsub (a b : Nat) : Nat :=
  (a + (2 ^ 64 - b % 2 ^ 64)) % 2 ^ 64

/-- `millis::Duration`: either anchored to a fixed `end` instant (`Ref`)
or measured from the ambient clock (`NoRef`). Field `end` is renamed
`endv` (`end` is a Lean keyword). -/
inductive Duration where
  | Ref (endv : Nat) (duration : Nat)
  | NoRef (duration : Nat)
deriving DecidableEq, Repr

/-- `millis::has_elapsed(start, duration)`. The ambient `now()` value is
passed explicitly as `nowv`. -/
def millis.has_elapsed (nowv start : Nat) (d : Duration) : Bool :=
  match d with
  | .Ref endv dur => decide (dur ≤ wsub endv start)
  | .NoRef dur => decide (dur ≤ wsub nowv start)

/-- `millis::TimeSpan`: a duration with a unit. The source's fields are
`u16` (`u8` for hours); theorems carry those bounds as hypotheses. -/
inductive TimeSpan where
  | Milliseconds (m : Nat)
  | Seconds (s : Nat)
  | Minutes (m : Nat)
  | Hours (h : Nat)
deriving DecidableEq, Repr

/-- `millis::milliseconds(ts)`: unit conversion computed in `u32`, so the
multiplications are reduced modulo `2 ^ 32`. The widening casts
(`u16 as u32`, `u8 as u32`) are exact and introduce no reduction. -/
def milliseconds : TimeSpan → Nat
  | .Milliseconds m => m
  | .Seconds s => s * 1000 % 2 ^ 32
  | .Minutes m => m * 60 * 1000 % 2 ^ 32
  | .Hours h => h * 60 * 60 * 1000 % 2 ^ 32

/-- `millis::Timer`: a start instant plus a duration. -/
structure Timer where
  start : Nat
  duration : Duration
deriving DecidableEq, Repr

/-- `Timer::new(timespan)`: captures `start = now()` (passed as `nowv`)
and a `NoRef` duration; the `u32 → u64` cast of `milliseconds` is exact. -/
def Timer.new (nowv : Nat) (ts : TimeSpan) : Timer :=
  { start := nowv, duration := Duration.NoRef (milliseconds ts) }

/-- `Timer::reset()`: rebases `start` to the current `now()`. -/
def Timer.reset (nowv : Nat) (t : Timer) : Timer :=
  { t with start := nowv }

/-- `Timer::has_elapsed()`. -/
def Timer.has_elapsed (nowv : Nat) (t : Timer) : Bool :=
  millis.has_elapsed nowv t.start t.duration

/-- `millis::PRESCALER`. -/
def PRESCALER : Nat := 1024

/-- `millis::TIMER_COUNTS`. -/
def TIMER_COUNTS : Nat := 125

/-- `millis::MILLIS_INCREMENT = PRESCALER * TIMER_COUNTS / 16000`. -/
def MILLIS_INCREMENT : Nat := PRESCALER * TIMER_COUNTS / 16000

/-- The `TIMER0_COMPA` interrupt body: adds `MILLIS_INCREMENT` to the
shared counter (a `u64`, hence the reduction modulo `2 ^ 64`). -/
def timer0_compa (counter : Nat) : Nat :=
  (counter + MILLIS_INCREMENT) % 2 ^ 64

/-- Counter value after `n` interrupt ticks following `millis::init`,
which resets the counter to zero. -/
def counterAfterTicks : Nat → Nat
  | 0 => 0
  | n + 1 => timer0_compa (counterAfterTicks n)

/-- `millis::now()`: reads the shared counter (inside a critical
section; the read returns the whole value). -/
def millisNow (counter : Nat) : Nat := counter

/-- `debounce::Debounce`, minus the pin handle: the raw sample is passed
to `tick` explicitly. -/
structure Debounce where
  settle_delay : Nat
  state : PinState
  last_change : Option Timer
  change : Option PinState
deriving DecidableEq, Repr

/-- `Debounce::new(pin, settle_delay)`: seeds the stable level from the
first raw read, `settle_delay.unwrap_or(10)`. -/
def Debounce.new (firstRaw : PinState) (settle : Option Nat) : Debounce :=
  { settle_delay := settle.getD 10
  , state := firstRaw
  , last_change := none
  , change := none }

/-- `Debounce::tick()`: `current` is the raw sample of this tick and
`nowv` the clock value at which it happens. -/
def Debounce.tick (d : Debounce) (nowv : Nat) (current : PinState) : Debounce :=
  if current = d.state then
    { d with last_change := none }
  else
    match d.last_change with
    | none =>
        { d with last_change := some (Timer.new nowv (TimeSpan.Milliseconds d.settle_delay)) }
    | some timer =>
        if timer.has_elapsed nowv then
          { d with change := some current, state := current, last_change := none }
        else
          d

/-- Whether this `tick` call commits a settled transition (the branch of
`Debounce::tick` that records a change event). -/
def Debounce.commits (d : Debounce) (nowv : Nat) (current : PinState) : Bool :=
  if current = d.state then false
  else
    match d.last_change with
    | none => false
    | some timer => timer.has_elapsed nowv

/-- `Debounce::changed()`: returns the buffered event without clearing. -/
def Debounce.changed (d : Debounce) : Option PinState := d.change

/-- `Debounce::clear()`: discards the buffered event. -/
def Debounce.clear (d : Debounce) : Debounce := { d with change := none }

/-- A sequence of `tick` calls, each a `(now, raw)` pair. -/
def Debounce.run (d : Debounce) : List (Nat × PinState) → Debounce
  | [] => d
  | p :: L => (d.tick p.1 p.2).run L

/-- How many of the ticks in the sequence commit a settled transition. -/
def commitCount (d : Debounce) : List (Nat × PinState) → Nat
  | [] => 0
  | p :: L => (if d.commits p.1 p.2 then 1 else 0) + commitCount (d.tick p.1 p.2) L

/-- `PowerState` from `src/main.rs`: the sequencer's tagged state, with
per-variant deadline payloads. -/
inductive PowerState where
  | Off
  | EnableSubwoofers (t : Timer)
  | On
  | DisableMixer (t : Timer)
  | RpiShutdown (t : Timer)
  | PowerSignalLow
deriving DecidableEq, Repr

/-- `impl PartialEq for PowerState`: kind-only equality, ignoring the
deadline payloads. -/
def PowerState.eq (a b : PowerState) : Bool :=
  match a, b with
  | .Off, .Off => true
  | .EnableSubwoofers _, .EnableSubwoofers _ => true
  | .On, .On => true
  | .DisableMixer _, .DisableMixer _ => true
  | .RpiShutdown _, .RpiShutdown _ => true
  | .PowerSignalLow, .PowerSignalLow => true
  | _, _ => false

/-- The variant discriminant of a `PowerState`, in declaration order. -/
def PowerState.kind : PowerState → Nat
  | .Off => 0
  | .EnableSubwoofers _ => 1
  | .On => 2
  | .DisableMixer _ => 3
  | .RpiShutdown _ => 4
  | .PowerSignalLow => 5

/-- The actuator outputs of `main`: the main power rail's PWM enable
(`pin_power_state`), the two relays, the companion run/request line
(`pin_rpi_state`) and the companion power supply (`pin_rpi_power`). -/
structure Pins where
  pin_power_state_enabled : Bool
  pin_relay_mixer : PinState
  pin_relay_subwoofers : PinState
  pin_rpi_state : PinState
  pin_rpi_power : PinState
deriving DecidableEq, Repr

/-- The mutable state of `main`'s loop. `eeprom` is the single persisted
recovery-flag byte at `state_offset`, modelled from the spec (see
`eepromErase`); `none` means the byte is unreadable. -/
structure Config where
  power_signal : Debounce
  rpi_signal : Debounce
  power_state : PowerState
  pins : Pins
  eeprom : Option Nat
  led_last : Nat
  led_state : Bool
  led_enabled : Bool
deriving DecidableEq, Repr

/-- Modelled from the spec: the `PersistentByteStore` collaborator
(`arduino_hal::Eeprom`) is external to this repository; per the spec's
capability contract, `erase(offset)` sets the byte back to the clean
value `0` and `write(offset, b)` stores `b`. -/
def eepromErase : Option Nat := some 0

/-- Modelled from the spec: `write(offset, b)` stores the byte `b`. -/
def eepromWrite (b : Nat) : Option Nat := some b

/-- The external samples consumed by one loop iteration: the clock value
and the raw levels of the switch pin (`d2`) and the companion-ack pin
(`d10`). -/
structure LoopInput where
  now : Nat
  raw_power : PinState
  raw_rpi : PinState
deriving DecidableEq, Repr

/-- The per-iteration updates that happen before the transition match:
both debounce filters are ticked and the heartbeat LED is advanced. -/
def loopBase (c : Config) (inp : LoopInput) : Config :=
  { c with
    power_signal := c.power_signal.tick inp.now inp.raw_power
  , rpi_signal := c.rpi_signal.tick inp.now inp.raw_rpi
  , led_last := if 1000 ≤ wsub inp.now c.led_last then inp.now else c.led_last
  , led_state := if 1000 ≤ wsub inp.now c.led_last then !c.led_state else c.led_state
  , led_enabled := if 1000 ≤ wsub inp.now c.led_last then !c.led_state else c.led_enabled }

/-- One iteration of `main`'s loop (lines 143–235 of `src/main.rs`):
ticks both debounce filters, updates the heartbeat LED, evaluates the
transition match on `power_state`, and reports whether the state-change
log line fires (`prev_state != power_state` under kind-only equality). -/
def loopStep (c : Config) (inp : LoopInput) : Config × Bool :=
  let ps := c.power_signal.tick inp.now inp.raw_power
  let rs := c.rpi_signal.tick inp.now inp.raw_rpi
  let changed := ps.changed
  let base : Config := loopBase c inp
  let next : Config :=
    match c.power_state with
    | .Off =>
        if changed = some .low then
          { base with
            power_signal := ps.clear
          , eeprom := eepromWrite 1
          , pins := { base.pins with
                      pin_power_state_enabled := true
                    , pin_relay_mixer := .low
                    , pin_rpi_state := .high
                    , pin_rpi_power := .low }
          , power_state := .EnableSubwoofers (Timer.new inp.now (.Seconds 5)) }
        else base
    | .EnableSubwoofers timer =>
        if timer.has_elapsed inp.now then
          { base with
            pins := { base.pins with pin_relay_subwoofers := .low }
          , power_state := .On }
        else base
    | .On =>
        if changed = some .high then
          { base with
            power_signal := ps.clear
          , pins := { base.pins with
                      pin_relay_subwoofers := .high
                    , pin_rpi_state := .low }
          , power_state := .DisableMixer (Timer.new inp.now (.Milliseconds 250)) }
        else base
    | .DisableMixer timer =>
        if timer.has_elapsed inp.now then
          { base with
            pins := { base.pins with pin_relay_mixer := .high }
          , power_state := .RpiShutdown (Timer.new inp.now (.Milliseconds 500)) }
        else base
    | .RpiShutdown timer =>
        if timer.has_elapsed inp.now then
          { base with
            pins := { base.pins with pin_rpi_state := base.pins.pin_rpi_state.toggle }
          , power_state := .RpiShutdown (Timer.new inp.now (.Milliseconds 500)) }
        else if rs.state = .high then
          { base with
            rpi_signal := rs.clear
          , pins := { base.pins with
                      pin_rpi_power := .high
                    , pin_power_state_enabled := false }
          , eeprom := eepromErase
          , power_state := .Off }
        else base
    | .PowerSignalLow =>
        if ps.state = .high then
          { base with
            pins := { base.pins with pin_power_state_enabled := false }
          , eeprom := eepromErase
          , power_state := .Off }
        else base
  (next, !(PowerState.eq c.power_state next.power_state))

/-- Startup recovery (lines 130–136 of `src/main.rs`): `power_state`
starts as `Off` and is overwritten with `PowerSignalLow` when the EEPROM
read fails or the read byte is nonzero. -/
def bootPowerState (readResult : Option Nat) : PowerState :=
  match readResult with
  | none => .PowerSignalLow
  | some b => if b > 0 then .PowerSignalLow else .Off

/-- The configuration at the top of the loop: filters freshly seeded
from the first raw reads (switch with `settle_delay` 100, ack with the
default), outputs at their hardware-setup levels, LED blinking, and the
boot recovery check applied. `bootNow` is `millis::now()` at line 120. -/
def bootConfig (readResult : Option Nat) (bootNow : Nat)
    (rawPower rawRpi : PinState) : Config :=
  { power_signal := Debounce.new rawPower (some 100)
  , rpi_signal := Debounce.new rawRpi none
  , power_state := bootPowerState readResult
  , pins := { pin_power_state_enabled := false
            , pin_relay_mixer := .high
            , pin_relay_subwoofers := .high
            , pin_rpi_state := .low
            , pin_rpi_power := .high }
  , eeprom := readResult
  , led_last := bootNow
  , led_state := true
  , led_enabled := true }

/-- Running the loop over a sequence of per-iteration inputs. -/
def runLoop (c : Config) : List LoopInput → Config
  | [] => c
  | i :: L => runLoop (loopStep c i).1 L

/-- The recovery-flag coupling: the sequencer is in a state other than
`Off` exactly when the persisted byte is not the clean value `0` (an
unreadable byte counts as unclean, per the spec's layout). -/
def flagInv (c : Config) : Prop :=
  c.power_state ≠ PowerState.Off ↔ c.eeprom ≠ some 0

/-- `wsub` agrees with plain subtraction when no wrap occurs. -/
theorem wsub_eq_sub {a b : Nat} (hba : b ≤ a) (ha : a < 2 ^ 64) :
    wsub a b = a - b := by
  unfold wsub
  omega

/-- The counter after `n` interrupt ticks is `n` increments, mod `2^64`. -/
theorem counterAfterTicks_eq (n : Nat) :
    counterAfterTicks n = MILLIS_INCREMENT * n % 2 ^ 64 := by
  induction n with
  | zero => simp [counterAfterTicks]
  | succ k ih =>
      simp only [counterAfterTicks, timer0_compa, ih, Nat.mul_succ]
      omega

/-- Claim C6: `now()` is a 64-bit millisecond count that never decreases
over the process lifetime (any later read is ≥ any earlier one, even
with an interrupt between them, as long as the counter has not wrapped,
which takes more than 2^61 interrupts); the counter is advanced only by
the fixed prescaler-derived step `MILLIS_INCREMENT = 1024 * 125 / 16000
= 8` on each interrupt tick, and `init()` resets it to zero. -/
theorem millis_monotonic_clock :
    MILLIS_INCREMENT = PRESCALER * TIMER_COUNTS / 16000
    ∧ MILLIS_INCREMENT = 8
    ∧ counterAfterTicks 0 = 0
    ∧ (∀ n, counterAfterTicks (n + 1) = (counterAfterTicks n + MILLIS_INCREMENT) % 2 ^ 64)
    ∧ (∀ n1 n2 : Nat, n1 ≤ n2 → MILLIS_INCREMENT * n2 < 2 ^ 64 →
        millisNow (counterAfterTicks n1) ≤ millisNow (counterAfterTicks n2)) := by
  refine ⟨rfl, rfl, rfl, fun n => rfl, fun n1 n2 h hlt => ?_⟩
  simp only [millisNow, counterAfterTicks_eq]
  have h1 : MILLIS_INCREMENT * n1 ≤ MILLIS_INCREMENT * n2 := Nat.mul_le_mul_left _ h
  omega

/-- Witness for C6 at concrete tick counts (a read four ticks in is at
least a read three ticks in, with an interrupt firing in between). -/
theorem millis_monotonic_clock_witness :
    millisNow (counterAfterTicks 3) ≤ millisNow (counterAfterTicks 4) :=
  millis_monotonic_clock.2.2.2.2 3 4 (by decide) (by decide)

/-- Claim C7: `Timer::new` captures `start = now()`; `has_elapsed` is
`now() - start >= duration` in milliseconds; the unit conversion is
exact for the source's `u16`/`u8` fields (seconds ×1000, minutes
×60000, hours ×3600000, milliseconds unchanged, including the 1 s =
1000 ms and 1 min = 60000 ms boundaries); `reset` rebases `start` and
keeps the duration. -/
theorem timer_elapsed_and_units :
    (∀ m, milliseconds (.Milliseconds m) = m)
    ∧ (∀ s, s < 2 ^ 16 → milliseconds (.Seconds s) = s * 1000)
    ∧ (∀ m, m < 2 ^ 16 → milliseconds (.Minutes m) = m * 60000)
    ∧ (∀ h, h < 2 ^ 8 → milliseconds (.Hours h) = h * 3600000)
    ∧ milliseconds (.Seconds 1) = 1000
    ∧ milliseconds (.Minutes 1) = 60000
    ∧ (∀ nowv ts, (Timer.new nowv ts).start = nowv
        ∧ (Timer.new nowv ts).duration = Duration.NoRef (milliseconds ts))
    ∧ (∀ nowv s d, s ≤ nowv → nowv < 2 ^ 64 →
        (Timer.has_elapsed nowv ⟨s, Duration.NoRef d⟩ = true ↔ d ≤ nowv - s))
    ∧ (∀ nowv t, (Timer.reset nowv t).start = nowv
        ∧ (Timer.reset nowv t).duration = t.duration) := by
  refine ⟨fun m => rfl, fun s hs => ?_, fun m hm => ?_, fun h hh => ?_,
    rfl, rfl, fun nowv ts => ⟨rfl, rfl⟩, fun nowv s d h1 h2 => ?_,
    fun nowv t => ⟨rfl, rfl⟩⟩
  · simp only [milliseconds]; omega
  · simp only [milliseconds]; omega
  · simp only [milliseconds]; omega
  · simp only [Timer.has_elapsed, millis.has_elapsed, wsub_eq_sub h1 h2,
      decide_eq_true_eq]

/-- Witness for C7: a 5-second timer started at 2 has not elapsed at
5001 ms but has at 5002 ms, and the bounded conversions at concrete
values. -/
theorem timer_elapsed_and_units_witness :
    milliseconds (.Seconds 5) = 5000
    ∧ (Timer.has_elapsed 5001 ⟨2, Duration.NoRef 5000⟩ = true ↔ 5000 ≤ 5001 - 2)
    ∧ milliseconds (.Hours 2) = 7200000 := by
  refine ⟨timer_elapsed_and_units.2.1 5 (by decide), ?_, ?_⟩
  · exact timer_elapsed_and_units.2.2.2.2.2.2.2.1 5001 2 5000 (by decide) (by decide)
  · exact timer_elapsed_and_units.2.2.2.1 2 (by decide)

@[simp]
theorem loopBase_power_state (c : Config) (inp : LoopInput) :
    (loopBase c inp).power_state = c.power_state := rfl

@[simp]
theorem loopBase_eeprom (c : Config) (inp : LoopInput) :
    (loopBase c inp).eeprom = c.eeprom := rfl

@[simp]
theorem loopBase_pins (c : Config) (inp : LoopInput) :
    (loopBase c inp).pins = c.pins := rfl

/-- The reported log flag is exactly `prev_state != power_state` under
the source's kind-only `PartialEq`. -/
theorem loopStep_snd (c : Config) (inp : LoopInput) :
    (loopStep c inp).2
      = !(PowerState.eq c.power_state (loopStep c inp).1.power_state) := rfl

/-- Claim C9: `PowerState` equality holds iff the two variants have the
same kind, ignoring deadline payloads (two `RpiShutdown` values with
different remaining deadlines compare equal), and the loop's log line
fires on an iteration exactly when this kind-only equality says the
committed variant changed — so the `RpiShutdown` retry self-loop, which
rebuilds the deadline payload, emits no log line. -/
theorem kind_only_equality :
    (∀ a b : PowerState, PowerState.eq a b = true ↔ a.kind = b.kind)
    ∧ (∀ t1 t2 : Timer,
        PowerState.eq (.RpiShutdown t1) (.RpiShutdown t2) = true)
    ∧ (∀ c inp, (loopStep c inp).2 = true
        ↔ c.power_state.kind ≠ (loopStep c inp).1.power_state.kind)
    ∧ (∀ c inp t, c.power_state = PowerState.RpiShutdown t →
        t.has_elapsed inp.now = true → (loopStep c inp).2 = false) := by
  have hk : ∀ a b : PowerState, PowerState.eq a b = true ↔ a.kind = b.kind := by
    intro a b
    cases a <;> cases b <;> simp [PowerState.eq, PowerState.kind]
  refine ⟨hk, fun t1 t2 => rfl, fun c inp => ?_, fun c inp t hc he => ?_⟩
  · rw [loopStep_snd, Bool.not_eq_true', ← Bool.not_eq_true, hk]
  · have h1 : (loopStep c inp).1.power_state
        = PowerState.RpiShutdown (Timer.new inp.now (.Milliseconds 500)) := by
      simp [loopStep, hc, he]
    rw [loopStep_snd, h1, hc]
    rfl

/-- Witness for C9's logging conjuncts at a concrete configuration: an
elapsed `RpiShutdown` retry iteration emits no log line. -/
theorem kind_only_equality_witness :
    (loopStep
      { power_signal := ⟨100, .low, none, none⟩
      , rpi_signal := ⟨10, .low, none, none⟩
      , power_state := .RpiShutdown ⟨0, Duration.NoRef 500⟩
      , pins := ⟨true, .high, .high, .high, .low⟩
      , eeprom := some 1
      , led_last := 0, led_state := true, led_enabled := true }
      ⟨500, .low, .low⟩).2 = false :=
  kind_only_equality.2.2.2 _ ⟨500, .low, .low⟩ ⟨0, Duration.NoRef 500⟩
    rfl (by decide)

/-- Claim C10: no loop iteration ever produces `PowerSignalLow`: it can
only be the boot-time initial state, so once the machine is in any
other state it never re-enters it for the remainder of execution. -/
theorem power_signal_low_only_at_boot :
    (∀ c inp, (loopStep c inp).1.power_state = PowerState.PowerSignalLow →
        c.power_state = PowerState.PowerSignalLow)
    ∧ (∀ c inp, c.power_state ≠ PowerState.PowerSignalLow →
        (loopStep c inp).1.power_state ≠ PowerState.PowerSignalLow)
    ∧ (∀ c L, c.power_state ≠ PowerState.PowerSignalLow →
        (runLoop c L).power_state ≠ PowerState.PowerSignalLow) := by
  have hstep : ∀ c inp, (loopStep c inp).1.power_state = PowerState.PowerSignalLow →
      c.power_state = PowerState.PowerSignalLow := by
    intro c inp h
    cases hc : c.power_state <;>
      simp only [loopStep, hc] at h <;>
      split_ifs at h <;>
      simp_all
  refine ⟨hstep, fun c inp h => fun hn => h (hstep c inp hn), fun c L => ?_⟩
  induction L generalizing c with
  | nil => exact fun h => h
  | cons i L ih =>
      intro h
      exact ih _ (fun hn => h (hstep c i hn))

/-- Witness for C10 at a concrete configuration: a machine in `Off`
stays out of `PowerSignalLow` across a run. -/
theorem power_signal_low_only_at_boot_witness :
    (runLoop (bootConfig (some 0) 0 .high .low)
        [⟨1, .high, .low⟩, ⟨2, .high, .low⟩]).power_state
      ≠ PowerState.PowerSignalLow :=
  power_signal_low_only_at_boot.2.2 _ _ (by decide)

/-- Claim C3: the persisted flag byte is read before entering the loop;
the initial state is `Off` iff the read succeeds and returns 0, and
`PowerSignalLow` on any failed read or nonzero value (e.g. 3),
independently of the switch's raw reading; from `PowerSignalLow`, only
a settled switch stable level of `high` (the clean/off position of the
pull-up input) transitions to `Off`, erasing the flag and disabling the
main power rail, and otherwise the state is unchanged. -/
theorem boot_recovery :
    (∀ r bootNow rawP rawR,
        (bootConfig r bootNow rawP rawR).power_state = PowerState.Off
          ↔ r = some 0)
    ∧ (∀ bootNow rawP rawR,
        (bootConfig (some 3) bootNow rawP rawR).power_state
          = PowerState.PowerSignalLow)
    ∧ (∀ bootNow rawP rawR,
        (bootConfig none bootNow rawP rawR).power_state
          = PowerState.PowerSignalLow)
    ∧ (∀ c inp, c.power_state = PowerState.PowerSignalLow →
        (c.power_signal.tick inp.now inp.raw_power).state = PinState.high →
        (loopStep c inp).1.power_state = PowerState.Off
        ∧ (loopStep c inp).1.eeprom = some 0
        ∧ (loopStep c inp).1.pins.pin_power_state_enabled = false)
    ∧ (∀ c inp, c.power_state = PowerState.PowerSignalLow →
        (c.power_signal.tick inp.now inp.raw_power).state = PinState.low →
        (loopStep c inp).1.power_state = PowerState.PowerSignalLow
        ∧ (loopStep c inp).1.eeprom = c.eeprom) := by
  refine ⟨fun r bootNow rawP rawR => ?_, fun bootNow rawP rawR => rfl,
    fun bootNow rawP rawR => rfl, fun c inp hc hs => ?_, fun c inp hc hs => ?_⟩
  · cases r with
    | none => simp [bootConfig, bootPowerState]
    | some b =>
        simp only [bootConfig, bootPowerState]
        split_ifs with hb
        · simp
          omega
        · simp
          omega
  · refine ⟨?_, ?_, ?_⟩ <;> simp [loopStep, hc, hs, eepromErase]
  · constructor <;> simp [loopStep, hc, hs]

/-- Witness for C3: booting with flag byte 3 starts in `PowerSignalLow`
even with the switch raw-reading low, and a settled clean switch then
reaches `Off` with the flag erased. -/
theorem boot_recovery_witness :
    (bootConfig (some 3) 0 PinState.low PinState.low).power_state
      = PowerState.PowerSignalLow
    ∧ ((loopStep
        { power_signal := ⟨100, .high, none, none⟩
        , rpi_signal := ⟨10, .low, none, none⟩
        , power_state := .PowerSignalLow
        , pins := ⟨false, .high, .high, .low, .high⟩
        , eeprom := some 3
        , led_last := 0, led_state := true, led_enabled := true }
        ⟨1, .high, .low⟩).1.power_state = PowerState.Off
      ∧ (loopStep
        { power_signal := ⟨100, .high, none, none⟩
        , rpi_signal := ⟨10, .low, none, none⟩
        , power_state := .PowerSignalLow
        , pins := ⟨false, .high, .high, .low, .high⟩
        , eeprom := some 3
        , led_last := 0, led_state := true, led_enabled := true }
        ⟨1, .high, .low⟩).1.eeprom = some 0
      ∧ (loopStep
        { power_signal := ⟨100, .high, none, none⟩
        , rpi_signal := ⟨10, .low, none, none⟩
        , power_state := .PowerSignalLow
        , pins := ⟨false, .high, .high, .low, .high⟩
        , eeprom := some 3
        , led_last := 0, led_state := true, led_enabled := true }
        ⟨1, .high, .low⟩).1.pins.pin_power_state_enabled = false) :=
  ⟨boot_recovery.2.1 0 PinState.low PinState.low,
   boot_recovery.2.2.2.1 _ ⟨1, .high, .low⟩ rfl (by decide)⟩

/-- Claim C1: from `Off` with the switch debounce filter's buffered
change event at the engage level (`low`, pull-up input), one iteration
clears the switch event, persists recovery flag = 1, enables the main
power rail, asserts mixer-enable (relay driven low) and the companion
request/run outputs, and moves to `EnableSubwoofers` with a deadline of
`Seconds 5` = 5000 ms starting at the iteration's clock value; from
`EnableSubwoofers` the state becomes `On` (asserting subwoofer-enable)
exactly when the deadline has elapsed, i.e. at least 5000 ms after
entry, and not before; with no engage event, `Off` is unchanged. -/
theorem power_on_sequence :
    (∀ c inp, c.power_state = PowerState.Off →
        (c.power_signal.tick inp.now inp.raw_power).changed
            = some PinState.low →
        (loopStep c inp).1.power_signal.change = none
        ∧ (loopStep c inp).1.eeprom = some 1
        ∧ (loopStep c inp).1.pins.pin_power_state_enabled = true
        ∧ (loopStep c inp).1.pins.pin_relay_mixer = PinState.low
        ∧ (loopStep c inp).1.pins.pin_rpi_state = PinState.high
        ∧ (loopStep c inp).1.pins.pin_rpi_power = PinState.low
        ∧ (loopStep c inp).1.power_state
            = PowerState.EnableSubwoofers ⟨inp.now, Duration.NoRef 5000⟩)
    ∧ (∀ c inp, c.power_state = PowerState.Off →
        (c.power_signal.tick inp.now inp.raw_power).changed
            ≠ some PinState.low →
        (loopStep c inp).1.power_state = PowerState.Off)
    ∧ (∀ c inp t, c.power_state = PowerState.EnableSubwoofers t →
        t.has_elapsed inp.now = true →
        (loopStep c inp).1.power_state = PowerState.On
        ∧ (loopStep c inp).1.pins.pin_relay_subwoofers = PinState.low)
    ∧ (∀ c inp t, c.power_state = PowerState.EnableSubwoofers t →
        t.has_elapsed inp.now = false →
        (loopStep c inp).1.power_state = PowerState.EnableSubwoofers t)
    ∧ (∀ s nowv, s ≤ nowv → nowv < 2 ^ 64 →
        (Timer.has_elapsed nowv ⟨s, Duration.NoRef 5000⟩ = true
          ↔ 5000 ≤ nowv - s)) := by
  refine ⟨fun c inp hc he => ?_, fun c inp hc he => ?_,
    fun c inp t hc ht => ?_, fun c inp t hc ht => ?_,
    fun s nowv h1 h2 => ?_⟩
  · refine ⟨?_, ?_, ?_, ?_, ?_, ?_, ?_⟩ <;>
      simp [loopStep, hc, he, eepromWrite, Debounce.clear, Timer.new,
        milliseconds]
  · simp [loopStep, hc, he]
  · constructor <;> simp [loopStep, hc, ht]
  · simp [loopStep, hc, ht]
  · simp only [Timer.has_elapsed, millis.has_elapsed, wsub_eq_sub h1 h2,
      decide_eq_true_eq]

/-- Witness for C1 at concrete inputs: the engage transition at clock 7,
and an `EnableSubwoofers` deadline that has not elapsed 4999 ms after
entry but has at 5000 ms. -/
theorem power_on_sequence_witness :
    (loopStep
      { power_signal := ⟨100, .low, none, some .low⟩
      , rpi_signal := ⟨10, .low, none, none⟩
      , power_state := .Off
      , pins := ⟨false, .high, .high, .low, .high⟩
      , eeprom := some 0
      , led_last := 0, led_state := true, led_enabled := true }
      ⟨7, .low, .low⟩).1.power_state
        = PowerState.EnableSubwoofers ⟨7, Duration.NoRef 5000⟩
    ∧ (loopStep
      { power_signal := ⟨100, .low, none, none⟩
      , rpi_signal := ⟨10, .low, none, none⟩
      , power_state := .EnableSubwoofers ⟨7, Duration.NoRef 5000⟩
      , pins := ⟨true, .low, .high, .high, .low⟩
      , eeprom := some 1
      , led_last := 0, led_state := true, led_enabled := true }
      ⟨5006, .low, .low⟩).1.power_state
        = PowerState.EnableSubwoofers ⟨7, Duration.NoRef 5000⟩
    ∧ (loopStep
      { power_signal := ⟨100, .low, none, none⟩
      , rpi_signal := ⟨10, .low, none, none⟩
      , power_state := .EnableSubwoofers ⟨7, Duration.NoRef 5000⟩
      , pins := ⟨true, .low, .high, .high, .low⟩
      , eeprom := some 1
      , led_last := 0, led_state := true, led_enabled := true }
      ⟨5007, .low, .low⟩).1.power_state = PowerState.On :=
  ⟨(power_on_sequence.1 _ ⟨7, .low, .low⟩ rfl (by decide)).2.2.2.2.2.2,
   power_on_sequence.2.2.2.1 _ ⟨5006, .low, .low⟩ ⟨7, Duration.NoRef 5000⟩
     rfl (by decide),
   (power_on_sequence.2.2.1 _ ⟨5007, .low, .low⟩ ⟨7, Duration.NoRef 5000⟩
     rfl (by decide)).1⟩

/-- Claim C2: from `On` with a settled disengage event (`high`), the
machine clears the event, deasserts subwoofer-enable and the companion
run signal, and enters `DisableMixer` with a 250 ms deadline; when that
deadline elapses the mixer relay is deasserted and the machine moves to
`RpiShutdown` with a 500 ms deadline (unprocessed until the next
iteration); whenever an `RpiShutdown` deadline elapses without the ack
filter having settled high, the companion power-request line toggles
and a fresh 500 ms deadline starts; once the ack filter's stable state
is `high` (acknowledged), the machine clears the ack event, deasserts
the companion power supply, erases the recovery flag, disables the main
power rail and commits `Off`. -/
theorem power_off_sequence :
    (∀ c inp, c.power_state = PowerState.On →
        (c.power_signal.tick inp.now inp.raw_power).changed
            = some PinState.high →
        (loopStep c inp).1.power_signal.change = none
        ∧ (loopStep c inp).1.pins.pin_relay_subwoofers = PinState.high
        ∧ (loopStep c inp).1.pins.pin_rpi_state = PinState.low
        ∧ (loopStep c inp).1.power_state
            = PowerState.DisableMixer ⟨inp.now, Duration.NoRef 250⟩)
    ∧ (∀ c inp t, c.power_state = PowerState.DisableMixer t →
        t.has_elapsed inp.now = false →
        (loopStep c inp).1.power_state = PowerState.DisableMixer t
        ∧ (loopStep c inp).1.pins.pin_relay_mixer = c.pins.pin_relay_mixer)
    ∧ (∀ c inp t, c.power_state = PowerState.DisableMixer t →
        t.has_elapsed inp.now = true →
        (loopStep c inp).1.pins.pin_relay_mixer = PinState.high
        ∧ (loopStep c inp).1.power_state
            = PowerState.RpiShutdown ⟨inp.now, Duration.NoRef 500⟩)
    ∧ (∀ c inp t, c.power_state = PowerState.RpiShutdown t →
        t.has_elapsed inp.now = true →
        (loopStep c inp).1.pins.pin_rpi_state
            = c.pins.pin_rpi_state.toggle
        ∧ (loopStep c inp).1.power_state
            = PowerState.RpiShutdown ⟨inp.now, Duration.NoRef 500⟩)
    ∧ (∀ c inp t, c.power_state = PowerState.RpiShutdown t →
        t.has_elapsed inp.now = false →
        (c.rpi_signal.tick inp.now inp.raw_rpi).state = PinState.high →
        (loopStep c inp).1.rpi_signal.change = none
        ∧ (loopStep c inp).1.pins.pin_rpi_power = PinState.high
        ∧ (loopStep c inp).1.eeprom = some 0
        ∧ (loopStep c inp).1.pins.pin_power_state_enabled = false
        ∧ (loopStep c inp).1.power_state = PowerState.Off)
    ∧ (∀ c inp t, c.power_state = PowerState.RpiShutdown t →
        t.has_elapsed inp.now = false →
        (c.rpi_signal.tick inp.now inp.raw_rpi).state = PinState.low →
        (loopStep c inp).1.power_state = PowerState.RpiShutdown t
        ∧ (loopStep c inp).1.eeprom = c.eeprom) := by
  refine ⟨fun c inp hc he => ?_, fun c inp t hc ht => ?_,
    fun c inp t hc ht => ?_, fun c inp t hc ht => ?_,
    fun c inp t hc ht hs => ?_, fun c inp t hc ht hs => ?_⟩
  · refine ⟨?_, ?_, ?_, ?_⟩ <;>
      simp [loopStep, hc, he, Debounce.clear, Timer.new, milliseconds]
  · constructor <;> simp [loopStep, hc, ht]
  · constructor <;> simp [loopStep, hc, ht, Timer.new, milliseconds]
  · constructor <;> simp [loopStep, hc, ht, Timer.new, milliseconds]
  · refine ⟨?_, ?_, ?_, ?_, ?_⟩ <;>
      simp [loopStep, hc, ht, hs, eepromErase, Debounce.clear]
  · constructor <;> simp [loopStep, hc, ht, hs]

/-- Witness for C2 at concrete inputs: the disengage transition, the
250 ms mixer deadline, a 500 ms retry toggle, and the acknowledged
shutdown reaching `Off` with the flag erased. -/
theorem power_off_sequence_witness :
    (loopStep
      { power_signal := ⟨100, .high, none, some .high⟩
      , rpi_signal := ⟨10, .low, none, none⟩
      , power_state := .On
      , pins := ⟨true, .low, .low, .high, .low⟩
      , eeprom := some 1
      , led_last := 0, led_state := true, led_enabled := true }
      ⟨9000, .high, .low⟩).1.power_state
        = PowerState.DisableMixer ⟨9000, Duration.NoRef 250⟩
    ∧ (loopStep
      { power_signal := ⟨100, .high, none, none⟩
      , rpi_signal := ⟨10, .low, none, none⟩
      , power_state := .DisableMixer ⟨9000, Duration.NoRef 250⟩
      , pins := ⟨true, .low, .high, .low, .low⟩
      , eeprom := some 1
      , led_last := 0, led_state := true, led_enabled := true }
      ⟨9250, .high, .low⟩).1.power_state
        = PowerState.RpiShutdown ⟨9250, Duration.NoRef 500⟩
    ∧ (loopStep
      { power_signal := ⟨100, .high, none, none⟩
      , rpi_signal := ⟨10, .low, none, none⟩
      , power_state := .RpiShutdown ⟨9250, Duration.NoRef 500⟩
      , pins := ⟨true, .high, .high, .low, .low⟩
      , eeprom := some 1
      , led_last := 0, led_state := true, led_enabled := true }
      ⟨9750, .high, .low⟩).1.power_state
        = PowerState.RpiShutdown ⟨9750, Duration.NoRef 500⟩
    ∧ (loopStep
      { power_signal := ⟨100, .high, none, none⟩
      , rpi_signal := ⟨10, .high, none, none⟩
      , power_state := .RpiShutdown ⟨9750, Duration.NoRef 500⟩
      , pins := ⟨true, .high, .high, .high, .low⟩
      , eeprom := some 1
      , led_last := 0, led_state := true, led_enabled := true }
      ⟨9900, .high, .high⟩).1.power_state = PowerState.Off
    ∧ (loopStep
      { power_signal := ⟨100, .high, none, none⟩
      , rpi_signal := ⟨10, .high, none, none⟩
      , power_state := .RpiShutdown ⟨9750, Duration.NoRef 500⟩
      , pins := ⟨true, .high, .high, .high, .low⟩
      , eeprom := some 1
      , led_last := 0, led_state := true, led_enabled := true }
      ⟨9900, .high, .high⟩).1.eeprom = some 0 :=
  ⟨(power_off_sequence.1 _ ⟨9000, .high, .low⟩ rfl (by decide)).2.2.2,
   (power_off_sequence.2.2.1 _ ⟨9250, .high, .low⟩ ⟨9000, Duration.NoRef 250⟩
     rfl (by decide)).2,
   (power_off_sequence.2.2.2.1 _ ⟨9750, .high, .low⟩
     ⟨9250, Duration.NoRef 500⟩ rfl (by decide)).2,
   (power_off_sequence.2.2.2.2.1 _ ⟨9900, .high, .high⟩
     ⟨9750, Duration.NoRef 500⟩ rfl (by decide) (by decide)).2.2.2.2,
   (power_off_sequence.2.2.2.2.1 _ ⟨9900, .high, .high⟩
     ⟨9750, Duration.NoRef 500⟩ rfl (by decide) (by decide)).2.2.1⟩

/-- One loop iteration preserves the recovery-flag coupling. -/
theorem flagInv_step (c : Config) (inp : LoopInput) (h : flagInv c) :
    flagInv (loopStep c inp).1 := by
  cases hc : c.power_state <;>
    simp only [flagInv, loopStep, hc] at h ⊢ <;>
    split_ifs <;>
    simp_all [eepromErase, eepromWrite]

/-- The recovery-flag coupling holds at every boot configuration. -/
theorem flagInv_boot (r : Option Nat) (bootNow : Nat)
    (rawP rawR : PinState) : flagInv (bootConfig r bootNow rawP rawR) := by
  cases r with
  | none => simp [flagInv, bootConfig, bootPowerState]
  | some b =>
      simp only [flagInv, bootConfig, bootPowerState]
      split_ifs with hb <;> simp <;> omega

/-- Claim C8: the persisted flag is written (to 1) only on the
`Off → EnableSubwoofers` transition and erased back to clean only on
the two transitions that reach `Off` (`RpiShutdown` on ack,
`PowerSignalLow` on a clean switch level); consequently in every
reachable configuration of the loop the machine is in a state other
than `Off` exactly when the flag is not cleanly zero (an unreadable
byte counting as unclean, which can arise only at boot). -/
theorem recovery_flag_invariant :
    (∀ c inp, flagInv c → flagInv (loopStep c inp).1)
    ∧ (∀ r bootNow rawP rawR, flagInv (bootConfig r bootNow rawP rawR))
    ∧ (∀ r bootNow rawP rawR L,
        flagInv (runLoop (bootConfig r bootNow rawP rawR) L))
    ∧ (∀ c inp, (loopStep c inp).1.eeprom ≠ c.eeprom →
        ((c.power_state = PowerState.Off
          ∧ (loopStep c inp).1.eeprom = some 1
          ∧ ∃ t, (loopStep c inp).1.power_state
              = PowerState.EnableSubwoofers t)
        ∨ ((loopStep c inp).1.power_state = PowerState.Off
          ∧ (loopStep c inp).1.eeprom = some 0
          ∧ ((∃ t, c.power_state = PowerState.RpiShutdown t)
            ∨ c.power_state = PowerState.PowerSignalLow)))) := by
  have hrun : ∀ L c, flagInv c → flagInv (runLoop c L) := by
    intro L
    induction L with
    | nil => exact fun c h => h
    | cons i L ih => exact fun c h => ih _ (flagInv_step c i h)
  refine ⟨flagInv_step, flagInv_boot,
    fun r bootNow rawP rawR L => hrun L _ (flagInv_boot r bootNow rawP rawR),
    fun c inp h => ?_⟩
  cases hc : c.power_state <;>
    simp only [loopStep, hc] at h ⊢ <;>
    split_ifs at h ⊢ <;>
    simp_all [eepromErase, eepromWrite]

/-- Witness for C8: the coupling holds after a run from a clean boot
through an engage transition. -/
theorem recovery_flag_invariant_witness :
    flagInv (runLoop (bootConfig (some 0) 0 .low .low)
      [⟨1, .low, .low⟩, ⟨200, .low, .low⟩]) :=
  recovery_flag_invariant.2.2.1 (some 0) 0 .low .low
    [⟨1, .low, .low⟩, ⟨200, .low, .low⟩]

/-- Running a concatenation of tick sequences runs them in order. -/
theorem Debounce.run_append (d : Debounce) (A B : List (Nat × PinState)) :
    d.run (A ++ B) = (d.run A).run B := by
  induction A generalizing d with
  | nil => rfl
  | cons p A ih => simp [Debounce.run, ih]

/-- Commit counts add up across a concatenation of tick sequences. -/
theorem commitCount_append (d : Debounce) (A B : List (Nat × PinState)) :
    commitCount d (A ++ B) = commitCount d A + commitCount (d.run A) B := by
  induction A generalizing d with
  | nil => simp [commitCount, Debounce.run]
  | cons p A ih => simp [commitCount, Debounce.run, ih]; omega

/-- Ticks whose raw sample equals the stable level leave a filter with
no pending candidate unchanged and commit nothing. -/
theorem Debounce.run_stable (d : Debounce) (L : List (Nat × PinState))
    (hlc : d.last_change = none) (hraw : ∀ p ∈ L, p.2 = d.state) :
    d.run L = d ∧ commitCount d L = 0 := by
  induction L with
  | nil => exact ⟨rfl, rfl⟩
  | cons p L ih =>
      have hp := hraw p (by simp)
      have htick : d.tick p.1 p.2 = d := by
        cases d
        simp_all [Debounce.tick]
      have hcom : d.commits p.1 p.2 = false := by
        simp [Debounce.commits, hp]
      rw [Debounce.run, commitCount, htick, hcom]
      have := ih fun q hq => hraw q (by simp [hq])
      simpa using this

/-- While a candidate is pending, raw samples that stay away from the
stable level but arrive before the candidate's deadline leave the
filter (deadline included) unchanged and commit nothing. -/
theorem Debounce.run_pending (d : Debounce) (tm : Timer)
    (L : List (Nat × PinState)) (hlc : d.last_change = some tm)
    (h : ∀ p ∈ L, p.2 ≠ d.state ∧ tm.has_elapsed p.1 = false) :
    d.run L = d ∧ commitCount d L = 0 := by
  induction L with
  | nil => exact ⟨rfl, rfl⟩
  | cons p L ih =>
      have hp := h p (by simp)
      have htick : d.tick p.1 p.2 = d := by
        simp [Debounce.tick, hp.1, hlc, hp.2]
      have hcom : d.commits p.1 p.2 = false := by
        simp [Debounce.commits, hp.1, hlc, hp.2]
      rw [Debounce.run, commitCount, htick, hcom]
      have := ih fun q hq => h q (by simp [hq])
      simpa using this

/-- A pending candidate settles on the first tick at or past its
deadline: the run commits exactly once and ends settled at the new
level, with the change event buffered. -/
theorem Debounce.run_settles (s b : PinState) (dly t0 : Nat)
    (ch : Option PinState) (L : List (Nat × PinState)) (hb : b ≠ s)
    (hraw : ∀ p ∈ L, p.2 = b)
    (hex : ∃ p ∈ L, Timer.has_elapsed p.1 ⟨t0, Duration.NoRef dly⟩ = true) :
    Debounce.run ⟨dly, s, some ⟨t0, Duration.NoRef dly⟩, ch⟩ L
        = ⟨dly, b, none, some b⟩
    ∧ commitCount ⟨dly, s, some ⟨t0, Duration.NoRef dly⟩, ch⟩ L = 1 := by
  induction L with
  | nil => simp at hex
  | cons p L ih =>
      have hp : p.2 = b := hraw p (by simp)
      by_cases hel : Timer.has_elapsed p.1 ⟨t0, Duration.NoRef dly⟩ = true
      · have htick :
            Debounce.tick ⟨dly, s, some ⟨t0, Duration.NoRef dly⟩, ch⟩ p.1 p.2
              = ⟨dly, b, none, some b⟩ := by
          simp [Debounce.tick, hp, hb, hel]
        have hcom :
            Debounce.commits ⟨dly, s, some ⟨t0, Duration.NoRef dly⟩, ch⟩
              p.1 p.2 = true := by
          simp [Debounce.commits, hp, hb, hel]
        rw [Debounce.run, commitCount, htick, hcom]
        have hrest := Debounce.run_stable ⟨dly, b, none, some b⟩ L rfl
          (fun q hq => hraw q (by simp [hq]))
        simp [hrest.1, hrest.2]
      · have htick :
            Debounce.tick ⟨dly, s, some ⟨t0, Duration.NoRef dly⟩, ch⟩ p.1 p.2
              = ⟨dly, s, some ⟨t0, Duration.NoRef dly⟩, ch⟩ := by
          simp [Debounce.tick, hp, hb, hel]
        have hcom :
            Debounce.commits ⟨dly, s, some ⟨t0, Duration.NoRef dly⟩, ch⟩
              p.1 p.2 = false := by
          simp [Debounce.commits, hp, hb, hel]
        rw [Debounce.run, commitCount, htick, hcom]
        obtain ⟨q, hq, hqel⟩ := hex
        rcases List.mem_cons.mp hq with hq | hq
        · rw [hq] at hqel; exact absurd hqel hel
        · have := ih (fun q hq => hraw q (by simp [hq])) ⟨q, hq, hqel⟩
          simp [this.1, this.2]

/-- Claim C4: starting from a filter with stable level `s` and no
pending candidate, a sequence of ticks whose raw samples all sit at
`b ≠ s`, with some tick at least `settle_delay` ms after the first
divergence (and no clock wrap), commits exactly one change event,
holding the new level `b`; afterwards `state()` returns `b` and the
event stays buffered — `changed()` merely projects it without clearing
(`Debounce.changed` mutates nothing) — until `clear()` discards it. -/
theorem debounce_settle (s b : PinState) (dly t0 : Nat)
    (ch : Option PinState) (L1 : List (Nat × PinState)) (hb : b ≠ s)
    (hraw : ∀ p ∈ L1, p.2 = b)
    (hfar : ∃ p ∈ L1, t0 + dly ≤ p.1 ∧ p.1 < 2 ^ 64) :
    Debounce.run ⟨dly, s, none, ch⟩ ((t0, b) :: L1) = ⟨dly, b, none, some b⟩
    ∧ commitCount ⟨dly, s, none, ch⟩ ((t0, b) :: L1) = 1
    ∧ (Debounce.run ⟨dly, s, none, ch⟩ ((t0, b) :: L1)).state = b
    ∧ (Debounce.run ⟨dly, s, none, ch⟩ ((t0, b) :: L1)).changed = some b
    ∧ ((Debounce.run ⟨dly, s, none, ch⟩ ((t0, b) :: L1)).clear).change
        = none := by
  have htick : Debounce.tick ⟨dly, s, none, ch⟩ t0 b
      = ⟨dly, s, some ⟨t0, Duration.NoRef dly⟩, ch⟩ := by
    simp [Debounce.tick, hb, Timer.new, milliseconds]
  have hcom : Debounce.commits ⟨dly, s, none, ch⟩ t0 b = false := by
    simp [Debounce.commits, hb]
  have hex : ∃ p ∈ L1,
      Timer.has_elapsed p.1 ⟨t0, Duration.NoRef dly⟩ = true := by
    obtain ⟨p, hp, h1, h2⟩ := hfar
    refine ⟨p, hp, ?_⟩
    simp [Timer.has_elapsed, millis.has_elapsed,
      wsub_eq_sub (by omega : t0 ≤ p.1) h2]
    omega
  have hmain := Debounce.run_settles s b dly t0 ch L1 hb hraw hex
  rw [Debounce.run, commitCount, htick, hcom, hmain.1]
  simp [hmain.2, Debounce.changed, Debounce.clear]

/-- Witness for C4: a switch held away from its stable level across
ticks at 0, 40, 80 and 120 ms with a 100 ms settle delay commits
exactly one change event holding the new level. -/
theorem debounce_settle_witness :
    Debounce.run ⟨100, .high, none, none⟩
        [(0, .low), (40, .low), (80, .low), (120, .low)]
      = ⟨100, .low, none, some .low⟩
    ∧ commitCount ⟨100, .high, none, none⟩
        [(0, .low), (40, .low), (80, .low), (120, .low)] = 1 := by
  have h := debounce_settle .high .low 100 0 none
    [(40, .low), (80, .low), (120, .low)] (by decide)
    (by decide) ⟨(120, .low), by decide, by decide⟩
  exact ⟨h.1, h.2.1⟩

/-- Claim C5: starting from a settled filter with stable level `s`, a
burst whose raw samples diverge to `b ≠ s` but return to `s` before
`settle_delay` ms have elapsed since the first divergence produces no
change event: the pending candidate, whose deadline is never restarted
by the repeated divergent samples, is discarded on the tick where the
raw sample equals the stable level again, and `state()` never exposes
an intermediate level at any point of the run. -/
theorem debounce_bounce_rejection (s b : PinState) (dly t0 tr : Nat)
    (L1 : List (Nat × PinState)) (hb : b ≠ s)
    (hraw : ∀ p ∈ L1, p.2 = b ∧ t0 ≤ p.1 ∧ p.1 < 2 ^ 64 ∧ p.1 - t0 < dly) :
    Debounce.run ⟨dly, s, none, none⟩ ((t0, b) :: L1 ++ [(tr, s)])
        = ⟨dly, s, none, none⟩
    ∧ commitCount ⟨dly, s, none, none⟩ ((t0, b) :: L1 ++ [(tr, s)]) = 0
    ∧ (∀ k, (Debounce.run ⟨dly, s, none, none⟩
        (((t0, b) :: L1 ++ [(tr, s)]).take k)).state = s)
    ∧ (∀ k, (Debounce.run ⟨dly, s, none, none⟩
        ((t0, b) :: L1.take k)).last_change
          = some ⟨t0, Duration.NoRef dly⟩) := by
  have htick0 : Debounce.tick ⟨dly, s, none, none⟩ t0 b
      = ⟨dly, s, some ⟨t0, Duration.NoRef dly⟩, none⟩ := by
    simp [Debounce.tick, hb, Timer.new, milliseconds]
  have hcom0 : Debounce.commits ⟨dly, s, none, none⟩ t0 b = false := by
    simp [Debounce.commits, hb]
  have hpendhyp : ∀ M : List (Nat × PinState), (∀ p ∈ M, p ∈ L1) →
      ∀ p ∈ M, p.2 ≠ (⟨dly, s, some ⟨t0, Duration.NoRef dly⟩, none⟩
          : Debounce).state
        ∧ Timer.has_elapsed p.1 ⟨t0, Duration.NoRef dly⟩ = false := by
    intro M hM p hp
    obtain ⟨h1, h2, h3, h4⟩ := hraw p (hM p hp)
    refine ⟨by simp [h1, hb], ?_⟩
    simp [Timer.has_elapsed, millis.has_elapsed, wsub_eq_sub h2 h3]
    omega
  have hpend := Debounce.run_pending
    ⟨dly, s, some ⟨t0, Duration.NoRef dly⟩, none⟩ ⟨t0, Duration.NoRef dly⟩
    L1 rfl (hpendhyp L1 fun p hp => hp)
  have htickr : Debounce.tick
      ⟨dly, s, some ⟨t0, Duration.NoRef dly⟩, none⟩ tr s
        = ⟨dly, s, none, none⟩ := by
    simp [Debounce.tick]
  have hcomr : Debounce.commits
      ⟨dly, s, some ⟨t0, Duration.NoRef dly⟩, none⟩ tr s = false := by
    simp [Debounce.commits]
  have htickr0 : Debounce.tick ⟨dly, s, none, none⟩ tr s
      = ⟨dly, s, none, none⟩ := by
    simp [Debounce.tick]
  have hrun1 : Debounce.run ⟨dly, s, none, none⟩ ((t0, b) :: L1)
      = ⟨dly, s, some ⟨t0, Duration.NoRef dly⟩, none⟩ := by
    rw [Debounce.run, htick0, hpend.1]
  have hpre : ∀ k, Debounce.run
      ⟨dly, s, some ⟨t0, Duration.NoRef dly⟩, none⟩ (L1.take k)
        = ⟨dly, s, some ⟨t0, Duration.NoRef dly⟩, none⟩ :=
    fun k => (Debounce.run_pending _ ⟨t0, Duration.NoRef dly⟩ (L1.take k) rfl
      (hpendhyp (L1.take k) fun p hp => List.take_subset k L1 hp)).1
  refine ⟨?_, ?_, ?_, ?_⟩
  · rw [Debounce.run_append, hrun1, Debounce.run, htickr]
    rfl
  · have hcc1 : commitCount (⟨dly, s, none, none⟩ : Debounce)
        ((t0, b) :: L1) = 0 := by
      rw [commitCount, hcom0, htick0]
      simp [hpend.2]
    rw [commitCount_append, hcc1, hrun1, commitCount, hcomr]
    rfl
  · intro k
    rw [List.take_append_eq_append_take, Debounce.run_append]
    have hrun_pre : (Debounce.run ⟨dly, s, none, none⟩
          (((t0, b) :: L1).take k)).state = s
        ∧ ((Debounce.run ⟨dly, s, none, none⟩ (((t0, b) :: L1).take k)).tick
            tr s).state = s := by
      cases k with
      | zero => exact ⟨rfl, by rw [List.take_zero, Debounce.run, htickr0]⟩
      | succ k =>
          rw [List.take_succ_cons, Debounce.run, htick0, hpre k]
          exact ⟨rfl, by rw [htickr]⟩
    cases hj : k - ((t0, b) :: L1).length with
    | zero => rw [List.take_zero]; exact hrun_pre.1
    | succ m =>
        rw [List.take_succ_cons, List.take_nil, Debounce.run]
        exact hrun_pre.2
  · intro k
    rw [Debounce.run, htick0, hpre k]

/-- Witness for C5: a 30 ms bounce (away at 0 and 30 ms, back at 60 ms)
against a 100 ms settle delay commits nothing and is fully discarded. -/
theorem debounce_bounce_rejection_witness :
    Debounce.run ⟨100, .high, none, none⟩
        [(0, .low), (30, .low), (60, .high)] = ⟨100, .high, none, none⟩
    ∧ commitCount ⟨100, .high, none, none⟩
        [(0, .low), (30, .low), (60, .high)] = 0
    ∧ (Debounce.run ⟨100, .high, none, none⟩
        [(0, .low), (30, .low)]).last_change
          = some ⟨0, Duration.NoRef 100⟩ := by
  have h := debounce_bounce_rejection .high .low 100 0 60 [(30, .low)]
    (by decide) (by decide)
  refine ⟨h.1, h.2.1, ?_⟩
  have h4 := h.2.2.2 1
  simpa using h4
